import Mathlib

/-!
Verification of the query-cache engine of this repository (thunk-based
execution pipeline, run condition, prefetch policy, tag calculation and
manual cache patching), shallowly embedded from `buildThunks.ts` and
`endpointDefinitions.ts`.  JavaScript values that matter for control flow
(truthiness, `===`, numeric coercion) are modelled explicitly; machine
numbers are modelled as rationals since all arithmetic here is on
timestamps and second thresholds.
-/

namespace RTKQ

/-- A JavaScript value, as far as the embedded code inspects one:
`undefined`, `null`, booleans, numbers, strings and opaque objects
(identified by an allocation id).  Only truthiness and equality are used. -/
inductive JSVal where
  | undef
  | null
  | bool (b : Bool)
  | num (q : ℚ)
  | str (s : String)
  | obj (id : ℕ)
deriving DecidableEq

/-- JavaScript truthiness of a value (`NaN` is not modelled; no code path
here produces it). -/
def JSVal.truthy : JSVal → Bool
  | .undef => false
  | .null => false
  | .bool b => b
  | .num q => decide (q ≠ 0)
  | .str s => decide (s ≠ "")
  | .obj _ => true

/-- Status of a cache entry, from `apiState.ts` (`QueryStatus`). -/
inductive QueryStatus where
  | uninitialized
  | pending
  | fulfilled
  | rejected
deriving DecidableEq

/-- The part of a cache entry (`state.queries[queryCacheKey]`) read by the
run condition of the query thunk: its status and, when it has fulfilled at
least once, its `fulfilledTimeStamp` (milliseconds). -/
structure QuerySubState where
  status : QueryStatus
  fulfilledTimeStamp : Option ℚ := none
deriving DecidableEq

/-- A JavaScript `boolean | number | undefined`, the type of
`arg.forceRefetch`, of `state.config.refetchOnMountOrArgChange` and of the
computed `refetchVal`. -/
inductive BoolOrNum where
  | bool (b : Bool)
  | num (q : ℚ)
  | undef
deriving DecidableEq

/-- JavaScript truthiness on `boolean | number | undefined`. -/
def BoolOrNum.truthy : BoolOrNum → Bool
  | .bool b => b
  | .num q => decide (q ≠ 0)
  | .undef => false

/-- JavaScript numeric coercion on `boolean | number | undefined`
(`undefined` coerces to `NaN`, modelled as `none`). -/
def BoolOrNum.toNum : BoolOrNum → Option ℚ
  | .bool b => some (if b then 1 else 0)
  | .num q => some q
  | .undef => none

/-- JavaScript `a >= b` where `b` may be `NaN` (`none`): any comparison
with `NaN` is false. -/
def jsGe (a : ℚ) (b : Option ℚ) : Bool :=
  match b with
  | some q => decide (a ≥ q)
  | none => false

/-- Truthiness of a `number | undefined` value such as
`requestState?.fulfilledTimeStamp`. -/
def jsOptNumTruthy : Option ℚ → Bool
  | none => false
  | some q => decide (q ≠ 0)

/-- The computation
`arg.forceRefetch ?? (arg.subscribe && baseFetchOnMountOrArgChange)` from
the run condition in `buildThunks.ts`.  `??` substitutes only for
`undefined`; `subscribe && base` evaluates to a falsy value when
`subscribe` is falsy and to `base` otherwise. -/
def computeRefetchVal (forceRefetch : BoolOrNum) (subscribe : Bool)
    (base : BoolOrNum) : BoolOrNum :=
  match forceRefetch with
  | .undef => if subscribe then base else .bool false
  | v => v

/-- The run condition of `queryThunk` (`buildThunks.ts`): return `false`
(skip execution) when the entry is pending; otherwise, when a truthy
`fulfilledTimeStamp` exists, proceed only for a truthy `refetchVal` that
is `=== true` or satisfies the staleness comparison
`(now - fulfilledVal) / 1000 >= refetchVal`; with no truthy fulfilled
timestamp, always proceed. -/
def condition (requestState : Option QuerySubState) (refetchVal : BoolOrNum)
    (now : ℚ) : Bool :=
  let fulfilledVal := requestState.bind (fun r => r.fulfilledTimeStamp)
  if requestState.map (fun r => r.status) = some QueryStatus.pending then false
  else if jsOptNumTruthy fulfilledVal then
    if refetchVal.truthy then
      decide (refetchVal = BoolOrNum.bool true) ||
        jsGe ((now - fulfilledVal.getD 0) / 1000) refetchVal.toNum
    else false
  else true

/-- The run condition as claim C1 words it: with a fulfilled entry, a
refetch value that is absent or `false` skips, and a requested refetch
value proceeds iff it is `true` or is a number `n` with
`(now - fulfilledTimeStamp) / 1000 >= n` (no special case for `n = 0`). -/
def conditionSpecC1 (requestState : Option QuerySubState)
    (refetchVal : BoolOrNum) (now : ℚ) : Bool :=
  if requestState.map (fun r => r.status) = some QueryStatus.pending then false
  else
    match requestState.bind (fun r => r.fulfilledTimeStamp) with
    | some ts =>
      match refetchVal with
      | .undef => false
      | .bool b => b
      | .num n => decide ((now - ts) / 1000 ≥ n)
    | none => true

/-- The run condition as amended: a refetch value of `0` (a falsy number)
is treated like no refetch request, so with a fulfilled entry the thunk
proceeds iff the refetch value is `true` or a nonzero number `n` with
`(now - fulfilledTimeStamp) / 1000 >= n`. -/
def conditionAmendedC1 (requestState : Option QuerySubState)
    (refetchVal : BoolOrNum) (now : ℚ) : Bool :=
  if requestState.map (fun r => r.status) = some QueryStatus.pending then false
  else
    match requestState.bind (fun r => r.fulfilledTimeStamp) with
    | some ts =>
      match refetchVal with
      | .undef => false
      | .bool b => b
      | .num n => if n = 0 then false else decide ((now - ts) / 1000 ≥ n)
    | none => true

/-- Options accepted by the prefetch thunk:
`{force?: boolean} | {ifOlderThan?: false | number}`.  A field set to
`none` models the key being absent from the object. -/
structure PrefetchOptions where
  force : Option Bool := none
  ifOlderThan : Option BoolOrNum := none
deriving DecidableEq

/-- What the prefetch thunk does: dispatch `initiate(arg, {forceRefetch})`
with the given flag, or dispatch nothing. -/
inductive PrefetchDecision where
  | dispatch (forceRefetch : Bool)
  | noop
deriving DecidableEq

/-- Whether a prefetch decision dispatches the query. -/
def PrefetchDecision.isDispatch : PrefetchDecision → Bool
  | .dispatch _ => true
  | .noop => false

/-- The prefetch thunk from `buildThunks.ts`:
`force = hasTheForce(options) && options.force`,
`maxAge = hasMaxAge(options) && options.ifOlderThan`; a truthy `force`
dispatches with `forceRefetch: true`; else a truthy `maxAge` dispatches
with `forceRefetch: true` when there is no truthy `fulfilledTimeStamp` or
when `(now - lastFulfilledTs) / 1000 >= maxAge`; else it dispatches with
`forceRefetch: false`. -/
def prefetchThunk (options : PrefetchOptions) (lastFulfilledTs : Option ℚ)
    (now : ℚ) : PrefetchDecision :=
  let force := match options.force with
    | some b => b
    | none => false
  let maxAge := match options.ifOlderThan with
    | some v => v
    | none => .bool false
  if force then .dispatch true
  else if maxAge.truthy then
    if jsOptNumTruthy lastFulfilledTs = false then .dispatch true
    else if jsGe ((now - lastFulfilledTs.getD 0) / 1000) maxAge.toNum then
      .dispatch true
    else .noop
  else .dispatch false

/-- A prefetch is performed when the prefetch thunk dispatches the query
and the dispatched query thunk passes its run condition (the prefetch
dispatch carries an explicit `forceRefetch` boolean, so the
`?? (subscribe && ...)` fallback is never taken). -/
def prefetchPerforms (options : PrefetchOptions)
    (requestState : Option QuerySubState) (subscribe : Bool)
    (base : BoolOrNum) (now : ℚ) : Bool :=
  match prefetchThunk options (requestState.bind (fun r => r.fulfilledTimeStamp)) now with
  | .dispatch f => condition requestState (computeRefetchVal (.bool f) subscribe base) now
  | .noop => false

/-- A full entity tag `{type, id?}` (`FullEntityDescription` in
`endpointDefinitions.ts`; `id` is an optional `number | string`, modelled
as an optional `JSVal`). -/
structure FullEntityDescription where
  type : String
  id : Option JSVal := none
deriving DecidableEq

/-- An element of a provides/invalidates description: a bare entity-type
string, or a full `{type, id?}` object. -/
inductive EntityDescription where
  | str (s : String)
  | full (t : FullEntityDescription)
deriving DecidableEq

/-- `expandEntityDescription` from `endpointDefinitions.ts`: a bare string
becomes `{type}`; an object is returned as-is. -/
def expandEntityDescription : EntityDescription → FullEntityDescription
  | .str s => { type := s }
  | .full t => t

/-- A provides/invalidates descriptor: a function of
`(result, error, arg)`, a static array, or absent (`undefined`). -/
inductive ResultDescription where
  | fn (f : JSVal → JSVal → JSVal → List EntityDescription)
  | arr (l : List EntityDescription)
  | absent

/-- Modelled from the spec: the `assertEntityType` helper (constructed in
`createApi`, whose source is not part of this repository) validates a
produced tag's `type` against the registered entity types, logging —
never throwing — on an unregistered type, and returns the tag unchanged. -/
def assertEntityType (t : FullEntityDescription) : FullEntityDescription := t

/-- `calculateProvidedBy` from `endpointDefinitions.ts`: a function
descriptor is invoked with `(result, error, queryArg)` and its output
expanded and asserted; an array descriptor is expanded and asserted
directly; an absent descriptor yields `[]`. -/
def calculateProvidedBy (description : ResultDescription)
    (result error queryArg : JSVal)
    (assertEntityTypes : FullEntityDescription → FullEntityDescription) :
    List FullEntityDescription :=
  match description with
  | .fn f => ((f result error queryArg).map expandEntityDescription).map assertEntityTypes
  | .arr l => (l.map expandEntityDescription).map assertEntityTypes
  | .absent => []

/-- The resolved outcome of a query/mutation thunk dispatch, as far as
`calculateProvidedByThunk` inspects it: a fulfilled action carries a
payload `{fulfilledTimeStamp, result}`, a rejected-with-value action
carries the rejection payload, a plainly rejected or pending action
carries neither. -/
inductive ThunkLifecycleAction where
  | pending
  | fulfilled (result : JSVal) (fulfilledTimeStamp : ℚ)
  | rejectedWithValue (payload : JSVal)
  | rejected
deriving DecidableEq

/-- `isFulfilled(action) ? action.payload.result : undefined`. -/
def ThunkLifecycleAction.resultArg : ThunkLifecycleAction → JSVal
  | .fulfilled r _ => r
  | _ => JSVal.undef

/-- `isRejectedWithValue(action) ? action.payload : undefined`. -/
def ThunkLifecycleAction.errorArg : ThunkLifecycleAction → JSVal
  | .rejectedWithValue p => p
  | _ => JSVal.undef

/-- `calculateProvidedByThunk` from `buildThunks.ts`: evaluate the
endpoint's provides/invalidates descriptor with the fulfilled payload's
result (else `undefined`), the rejected-with-value payload (else
`undefined`) and the original args. -/
def calculateProvidedByThunk (action : ThunkLifecycleAction)
    (description : ResultDescription) (originalArgs : JSVal) :
    List FullEntityDescription :=
  calculateProvidedBy description action.resultArg action.errorArg
    originalArgs assertEntityType

/-- An immer-style patch (the `Patch` type of the structural-diff
collaborator), as far as this code constructs one. -/
structure Patch where
  op : String
  path : List JSVal
  value : JSVal := JSVal.undef
deriving DecidableEq

/-- A `{patches, inversePatches}` pair (`PatchCollection`). -/
structure PatchCollection where
  patches : List Patch
  inversePatches : List Patch
deriving DecidableEq

/-- An action dispatched by the manual cache patch entry points. -/
inductive DispatchedAction where
  | queryResultPatched (queryCacheKey : String) (patches : List Patch)
deriving DecidableEq

/-- `patchQueryResult` from `buildThunks.ts`: unconditionally dispatch
`queryResultPatched` for the serialized cache key with the given patches;
nothing is returned.  The value of the thunk is the list of dispatched
actions. -/
def patchQueryResult (queryCacheKey : String) (patches : List Patch) :
    List DispatchedAction :=
  [.queryResultPatched queryCacheKey patches]

/-- The state selected for a cache key by
`api.endpoints[endpointName].select(args)`: a status, and a `data` field
when one is present on the substate. -/
structure SelectedQueryState where
  status : QueryStatus
  data : Option JSVal := none
deriving DecidableEq

/-- The structural-diff collaborator (immer): `isDraftable` and
`produceWithPatches`, external to this repository and taken as
parameters. -/
structure ImmerModel where
  isDraftable : JSVal → Bool
  produceWithPatches : JSVal → (JSVal → JSVal) → JSVal × List Patch × List Patch

/-- The `replace` op string used by the non-draftable branch. -/
def replaceOp : String := "replace"

/-- `updateQueryResult` from `buildThunks.ts`: return
`{patches: [], inversePatches: []}` without dispatching when the selected
state is uninitialized; otherwise build the patch collection from the
recipe (via `produceWithPatches` on draftable data, or a whole-value
`replace` patch pair otherwise), dispatch `patchQueryResult` with the
forward patches, and return the collection. -/
def updateQueryResult (immer : ImmerModel) (queryCacheKey : String)
    (currentState : SelectedQueryState) (updateRecipe : JSVal → JSVal) :
    PatchCollection × List DispatchedAction :=
  if currentState.status = QueryStatus.uninitialized then (⟨[], []⟩, [])
  else
    let ret : PatchCollection :=
      match currentState.data with
      | some d =>
        if immer.isDraftable d then
          let r := immer.produceWithPatches d updateRecipe
          ⟨r.2.1, r.2.2⟩
        else
          ⟨[⟨replaceOp, [], updateRecipe d⟩], [⟨replaceOp, [], d⟩]⟩
      | none => ⟨[], []⟩
    (ret, patchQueryResult queryCacheKey ret.patches)

/-- The per-request mutable `context` object, modelled as an association
list from keys to values; a hook that completes replaces its contents, a
hook that throws is modelled as leaving it unchanged. -/
def Ctx : Type := List (String × JSVal)

/-- The empty, freshly created context object (`const context = {}`). -/
def emptyCtx : Ctx := []

/-- A resolved transport result `{data?, error?, meta?}`
(`QueryReturnValue`); absent fields are `undefined`. -/
structure QueryReturnValue where
  data : JSVal := JSVal.undef
  error : JSVal := JSVal.undef
  meta : JSVal := JSVal.undef
deriving DecidableEq

/-- One execution's environment for `executeEndpoint`: the endpoint
definition's hooks and transform, the request builder, and the behaviour
of the transport (or custom `queryFn`) for this execution.  Each step
either completes with a value or throws a JavaScript value. -/
structure ExecEnv where
  onStart : Option (Ctx → Except JSVal Ctx) := none
  usesQuery : Bool := true
  queryBuild : Except JSVal JSVal := .ok JSVal.undef
  baseQuery : JSVal → Except JSVal QueryReturnValue := fun _ => .ok {}
  queryFn : Except JSVal QueryReturnValue := .ok {}
  hasTransformResponse : Bool := false
  transformResponse : JSVal → JSVal → Except JSVal JSVal := fun d _ => .ok d
  onSuccess : Option (Ctx → JSVal → JSVal → Except JSVal Ctx) := none
  onError : Option (Ctx → JSVal → JSVal → Except JSVal Ctx) := none
  now : ℚ := 0

/-- An exception flowing to the `catch` block: the internal
`HandledError` thrown on a truthy `result.error`, or an arbitrary thrown
JavaScript value. -/
inductive Exn where
  | handled (value meta : JSVal)
  | js (e : JSVal)
deriving DecidableEq

/-- Observable events of one execution, in order: each hook call records
the identity of the context object it was handed and the context's
contents at that moment; `transportEv` marks the awaited transport call;
`timestampEv` marks the evaluation of the fulfillment timestamp;
`transformEv` marks the completed response transform with its raw
arguments. -/
inductive ExecEvent where
  | onStartEv (ctxId : ℕ) (ctx : Ctx)
  | transportEv
  | onSuccessEv (ctxId : ℕ) (ctx : Ctx) (data meta : JSVal)
  | timestampEv (t : ℚ)
  | transformEv (data meta : JSVal)
  | onErrorEv (ctxId : ℕ) (ctx : Ctx) (error meta : JSVal)

/-- The context-object identity recorded in a hook event, if any. -/
def ExecEvent.ctxId : ExecEvent → Option ℕ
  | .onStartEv i _ => some i
  | .onSuccessEv i _ _ _ => some i
  | .onErrorEv i _ _ _ => some i
  | _ => none

/-- How one execution of `executeEndpoint` ends: fulfilled with
`{fulfilledTimeStamp, result}`, rejected-with-value (`rejectWithValue`),
or with an uncaught thrown value. -/
inductive ExecOutcome where
  | fulfilled (fulfilledTimeStamp : ℚ) (result : JSVal)
  | rejectedWithValue (value : JSVal)
  | thrown (e : JSVal)
deriving DecidableEq

/-- The default response transform (identity on the transport's data). -/
def defaultTransformResponse (baseQueryReturnValue : JSVal) (_meta : JSVal) :
    Except JSVal JSVal :=
  .ok baseQueryReturnValue

/-- The transform in effect: the endpoint's `transformResponse` only when
the endpoint uses `query` and defines one, else the default identity. -/
def effectiveTransform (env : ExecEnv) : JSVal → JSVal → Except JSVal JSVal :=
  if env.usesQuery && env.hasTransformResponse then env.transformResponse
  else defaultTransformResponse

/-- Obtaining the transport result inside the `try` block:
`baseQuery(endpointDefinition.query(arg.originalArgs), ...)` on the
`query` path, or `endpointDefinition.queryFn(...)` on the custom path. -/
def runTransport (env : ExecEnv) : Except JSVal QueryReturnValue :=
  if env.usesQuery then env.queryBuild.bind env.baseQuery else env.queryFn

/-- The `try` block of `executeEndpoint` after `onStart`: await the
transport, throw `HandledError(result.error, result.meta)` on a truthy
`result.error`, call `onSuccess` with the raw data and meta, evaluate the
fulfillment timestamp, then apply the response transform.  Returns the
events emitted, the context contents when the block ends, and either the
`{fulfilledTimeStamp, result}` pair or the exception reaching `catch`. -/
def tryBlock (env : ExecEnv) (ctxId : ℕ) (ctx : Ctx) :
    List ExecEvent × Ctx × Except Exn (ℚ × JSVal) :=
  match runTransport env with
  | .error e => ([.transportEv], ctx, .error (.js e))
  | .ok result =>
    if result.error.truthy then
      ([.transportEv], ctx, .error (.handled result.error result.meta))
    else
      let afterSuccess : List ExecEvent × Ctx × Option JSVal :=
        match env.onSuccess with
        | some h =>
          match h ctx result.data result.meta with
          | .error e =>
            ([.transportEv, .onSuccessEv ctxId ctx result.data result.meta], ctx, some e)
          | .ok ctx1 =>
            ([.transportEv, .onSuccessEv ctxId ctx result.data result.meta], ctx1, none)
        | none => ([.transportEv], ctx, none)
      match afterSuccess with
      | (evs, ctx1, some e) => (evs, ctx1, .error (.js e))
      | (evs, ctx1, none) =>
        match effectiveTransform env result.data result.meta with
        | .error e => (evs ++ [.timestampEv env.now], ctx1, .error (.js e))
        | .ok v =>
          (evs ++ [.timestampEv env.now, .transformEv result.data result.meta],
            ctx1, .ok (env.now, v))

/-- The error value handed to `onError`:
`error instanceof HandledError ? error.value : error`. -/
def exnVal : Exn → JSVal
  | .handled v _ => v
  | .js e => e

/-- The meta value handed to `onError`:
`error instanceof HandledError ? error.meta : undefined`. -/
def exnMeta : Exn → JSVal
  | .handled _ m => m
  | .js _ => JSVal.undef

/-- How the `catch` block ends when `onError` does not itself throw:
`rejectWithValue(error.value)` for a `HandledError`, rethrow otherwise. -/
def exnFinish : Exn → ExecOutcome
  | .handled v _ => .rejectedWithValue v
  | .js e => .thrown e

/-- The rest of `executeEndpoint` once `onStart` has completed: run the
`try` block; on an exception, call `onError` with the handled value/meta
(or the raw thrown value and `undefined`), rethrowing anything `onError`
itself throws, then either `rejectWithValue` for a `HandledError` or
rethrow. -/
def executeBody (env : ExecEnv) (ctxId : ℕ) (ctx : Ctx)
    (trace0 : List ExecEvent) (σ : ℕ) :
    List ExecEvent × ExecOutcome × ℕ :=
  match tryBlock env ctxId ctx with
  | (tr, ctx1, res) =>
    match res with
    | .ok (ts, v) => (trace0 ++ tr, .fulfilled ts v, σ + 1)
    | .error exn =>
      match env.onError with
      | some h =>
        match h ctx1 (exnVal exn) (exnMeta exn) with
        | .error e2 =>
          (trace0 ++ tr ++ [.onErrorEv ctxId ctx1 (exnVal exn) (exnMeta exn)],
            .thrown e2, σ + 1)
        | .ok _ =>
          (trace0 ++ tr ++ [.onErrorEv ctxId ctx1 (exnVal exn) (exnMeta exn)],
            exnFinish exn, σ + 1)
      | none => (trace0 ++ tr, exnFinish exn, σ + 1)

/-- `executeEndpoint` from `buildThunks.ts`, over an allocation counter
`σ` used to give each execution's fresh context object its identity: a
fresh empty context is created, `onStart` (when defined) runs
synchronously before the `try` block — an exception it throws propagates
uncaught — and the body then runs with that context. -/
def executeEndpoint (env : ExecEnv) (σ : ℕ) :
    List ExecEvent × ExecOutcome × ℕ :=
  let ctxId := σ
  match env.onStart with
  | some h =>
    match h emptyCtx with
    | .error e => ([.onStartEv ctxId emptyCtx], .thrown e, σ + 1)
    | .ok ctx1 => executeBody env ctxId ctx1 [.onStartEv ctxId emptyCtx] σ
  | none => executeBody env ctxId emptyCtx [] σ

/-- The event trace of one execution. -/
def execTrace (env : ExecEnv) (σ : ℕ) : List ExecEvent :=
  (executeEndpoint env σ).1

/-- The outcome of one execution. -/
def execOutcome (env : ExecEnv) (σ : ℕ) : ExecOutcome :=
  (executeEndpoint env σ).2.1

/-- The allocation counter after one execution. -/
def execCounter (env : ExecEnv) (σ : ℕ) : ℕ :=
  (executeEndpoint env σ).2.2

/-- The endpoint's `onStart` hook completes (does not throw) on the fresh
context. -/
def onStartOk (env : ExecEnv) : Prop :=
  match env.onStart with
  | some h => ∃ c, h emptyCtx = .ok c
  | none => True

/-- The endpoint's `onError` hook never throws. -/
def onErrorNoThrow (env : ExecEnv) : Prop :=
  match env.onError with
  | some h => ∀ c v m, ∃ c1, h c v m = .ok c1
  | none => True

/-- The context contents right after `onStart` (the fresh empty context
when `onStart` is absent or throws). -/
def ctxAfterStart (env : ExecEnv) : Ctx :=
  match env.onStart with
  | some h =>
    match h emptyCtx with
    | .ok c => c
    | .error _ => emptyCtx
  | none => emptyCtx

/-- A concrete cache key used in closed instances. -/
def keyEx : String := "cacheKey"

/-- A concrete patch used in closed instances. -/
def patchEx : Patch := ⟨replaceOp, [], JSVal.num 1⟩

/-- A concrete structural-diff collaborator used in closed instances. -/
def immerEx : ImmerModel := ⟨fun _ => true, fun d _ => (d, [], [])⟩

/-- Prefetch options with neither `force` nor `ifOlderThan` present. -/
def noOptions : PrefetchOptions := ⟨none, none⟩

/-- The endpoint's `onSuccess` hook, when defined, completes on the given
transport result with final context `c1`; when absent, `c1` is the
context left by `onStart`. -/
def onSuccessYields (env : ExecEnv) (r : QueryReturnValue) (c1 : Ctx) : Prop :=
  match env.onSuccess with
  | some hs => hs (ctxAfterStart env) r.data r.meta = .ok c1
  | none => c1 = ctxAfterStart env

/-- An execution whose custom `queryFn` resolves with `data: 5` and the
present but falsy `error: 0`. -/
def envFalsyError : ExecEnv :=
  { usesQuery := false
    queryFn := .ok ⟨JSVal.num 5, JSVal.num 0, JSVal.undef⟩
    now := 7 }

/-- An execution whose custom `queryFn` resolves with a truthy
`error: 7` and `meta: 9`, with an `onError` hook that completes. -/
def envHandled : ExecEnv :=
  { usesQuery := false
    queryFn := .ok ⟨JSVal.undef, JSVal.num 7, JSVal.num 9⟩
    onError := some (fun c _ _ => .ok c)
    now := 3 }

/-- An execution with all three hooks, whose `onStart` stashes a value in
the context and whose `queryFn` resolves successfully. -/
def envHooks : ExecEnv :=
  { onStart := some (fun c => .ok ((keyEx, JSVal.num 1) :: c))
    usesQuery := false
    queryFn := .ok ⟨JSVal.num 5, JSVal.undef, JSVal.num 6⟩
    onSuccess := some (fun c _ _ => .ok c)
    onError := some (fun c _ _ => .ok c)
    now := 4 }

/-- Like `envHooks` but whose `queryFn` throws the value `8`. -/
def envHooksErr : ExecEnv :=
  { onStart := some (fun c => .ok ((keyEx, JSVal.num 1) :: c))
    usesQuery := false
    queryFn := .error (JSVal.num 8)
    onSuccess := some (fun c _ _ => .ok c)
    onError := some (fun c _ _ => .ok c)
    now := 4 }

/-- Claim C1, as stated, is false on the code: with a fulfilled entry
(`fulfilledTimeStamp = 1000`) and a requested refetch value of `0`
(a number with `(now - fulfilledTimeStamp) / 1000 = 4 ≥ 0`), the claim
says the thunk proceeds, but the run condition treats the falsy `0` as no
refetch request and skips. -/
theorem claim1_condition_refetch_cex :
    condition (some ⟨QueryStatus.fulfilled, some 1000⟩) (BoolOrNum.num 0) 5000 = false ∧
    conditionSpecC1 (some ⟨QueryStatus.fulfilled, some 1000⟩) (BoolOrNum.num 0) 5000 = true := by
  constructor
  · simp [condition, jsOptNumTruthy, BoolOrNum.truthy]
  · norm_num [conditionSpecC1]
    decide

/-- Claim C1 (amended): the run condition skips exactly when the entry is
pending, or when a fulfilled entry exists and the refetch value is not
truthy (absent, `false`, or the number `0`); with a fulfilled entry and a
truthy refetch value it proceeds iff the value is `true` or is a nonzero
number `n` with `(now - fulfilledTimeStamp) / 1000 ≥ n`; with no
fulfilled entry it proceeds unless pending.  In particular
`forceRefetch: true` always proceeds unless the entry is pending. -/
theorem claim1_condition_amended (rs : Option QuerySubState) (v : BoolOrNum)
    (now : ℚ) (hts : rs.bind (fun r => r.fulfilledTimeStamp) ≠ some 0) :
    condition rs v now = conditionAmendedC1 rs v now ∧
    (∀ s b, condition rs (computeRefetchVal (BoolOrNum.bool true) s b) now =
      decide (rs.map (fun r => r.status) ≠ some QueryStatus.pending)) := by
  constructor
  · rcases rs with _ | ⟨st, ts⟩
    · simp [condition, conditionAmendedC1, jsOptNumTruthy]
    · rcases ts with _ | q
      · by_cases hp : st = QueryStatus.pending <;>
          simp [condition, conditionAmendedC1, jsOptNumTruthy, hp]
      · have hq : q ≠ 0 := by
          intro h
          exact hts (by simp [h])
        by_cases hp : st = QueryStatus.pending
        · simp [condition, conditionAmendedC1, hp]
        · rcases v with b | n | _
          · cases b <;>
              simp [condition, conditionAmendedC1, hp, jsOptNumTruthy, hq,
                BoolOrNum.truthy, jsGe, BoolOrNum.toNum]
          · by_cases hn : n = 0 <;>
              simp [condition, conditionAmendedC1, hp, jsOptNumTruthy, hq,
                BoolOrNum.truthy, jsGe, BoolOrNum.toNum, hn]
          · simp [condition, conditionAmendedC1, hp, jsOptNumTruthy, hq,
              BoolOrNum.truthy]
  · intro s b
    have hcv : computeRefetchVal (BoolOrNum.bool true) s b = BoolOrNum.bool true := rfl
    rw [hcv]
    rcases rs with _ | ⟨st, ts⟩
    · simp [condition, jsOptNumTruthy, BoolOrNum.truthy]
    · by_cases hp : st = QueryStatus.pending
      · simp [condition, hp]
      · rcases ts with _ | q
        · simp [condition, hp, jsOptNumTruthy, BoolOrNum.truthy]
        · by_cases hq0 : q = 0 <;>
            simp [condition, hp, jsOptNumTruthy, hq0, BoolOrNum.truthy]

/-- Witness for the amended claim C1 at a fulfilled entry with timestamp
`1000`, refetch value `true`, now `2000`. -/
theorem claim1_condition_amended_witness :
    condition (some ⟨QueryStatus.fulfilled, some 1000⟩) (BoolOrNum.bool true) 2000 =
      conditionAmendedC1 (some ⟨QueryStatus.fulfilled, some 1000⟩) (BoolOrNum.bool true) 2000 ∧
    condition (some ⟨QueryStatus.fulfilled, some 1000⟩)
        (computeRefetchVal (BoolOrNum.bool true) true (BoolOrNum.num 3)) 2000 =
      decide ((some (QuerySubState.mk QueryStatus.fulfilled (some 1000))).map
          (fun r => r.status) ≠ some QueryStatus.pending) :=
  ⟨(claim1_condition_amended (some ⟨QueryStatus.fulfilled, some 1000⟩)
      (BoolOrNum.bool true) 2000 (by decide)).1,
    (claim1_condition_amended (some ⟨QueryStatus.fulfilled, some 1000⟩)
      (BoolOrNum.bool true) 2000 (by decide)).2 true (BoolOrNum.num 3)⟩

/-- Claim C2: whenever the cache entry for the key has status `pending`,
the run condition returns `false`, for every refetch value and time, so a
second dispatch of the same query and argument is skipped instead of
starting a second in-flight operation. -/
theorem claim2_condition_pending_skips (r : QuerySubState) (v : BoolOrNum)
    (now : ℚ) (h : r.status = QueryStatus.pending) :
    condition (some r) v now = false := by
  simp [condition, h]

/-- Witness for claim C2 at a concrete pending entry. -/
theorem claim2_condition_pending_skips_witness :
    condition (some ⟨QueryStatus.pending, some 5⟩) (BoolOrNum.bool true) 9 = false :=
  claim2_condition_pending_skips ⟨QueryStatus.pending, some 5⟩
    (BoolOrNum.bool true) 9 rfl

/-- Claim C4: a function descriptor is applied to `(result, error, arg)`
with bare strings expanded to `{type}`; an array descriptor yields the
same expansion independent of result, error and arg; an absent descriptor
yields `[]`; expansion keeps objects as-is. -/
theorem claim4_calculateProvidedBy_cases
    (f : JSVal → JSVal → JSVal → List EntityDescription)
    (l : List EntityDescription) (res err arg res1 err1 arg1 : JSVal) :
    calculateProvidedBy (.fn f) res err arg assertEntityType =
      (f res err arg).map expandEntityDescription ∧
    calculateProvidedBy (.arr l) res err arg assertEntityType =
      l.map expandEntityDescription ∧
    calculateProvidedBy (.arr l) res err arg assertEntityType =
      calculateProvidedBy (.arr l) res1 err1 arg1 assertEntityType ∧
    calculateProvidedBy .absent res err arg assertEntityType = [] ∧
    (∀ s, expandEntityDescription (.str s) = ⟨s, none⟩) ∧
    (∀ t, expandEntityDescription (.full t) = t) := by
  refine ⟨?_, ?_, rfl, rfl, fun s => rfl, fun t => rfl⟩ <;>
    simp [calculateProvidedBy, assertEntityType]

/-- Claim C5: with `ifOlderThan` a number `n` and no `force`, the
prefetch dispatches the query iff there is no fulfilled timestamp, or
`(now - fulfilledTimeStamp) / 1000 ≥ n`; in particular `ifOlderThan: 0`
always dispatches (behaving as always-stale, not as disabled). -/
theorem claim5_prefetch_ifOlderThan (n : ℚ) (ts : Option ℚ) (now : ℚ)
    (h0 : ts ≠ some 0) (h1 : ∀ q, ts = some q → q ≤ now) :
    ((prefetchThunk ⟨none, some (BoolOrNum.num n)⟩ ts now).isDispatch = true ↔
      ts = none ∨ ∃ q, ts = some q ∧ (now - q) / 1000 ≥ n) ∧
    (∀ ts1 now1,
      (prefetchThunk ⟨none, some (BoolOrNum.num 0)⟩ ts1 now1).isDispatch = true) := by
  constructor
  · by_cases hn : n = 0
    · subst hn
      have hl : (prefetchThunk ⟨none, some (BoolOrNum.num 0)⟩ ts now).isDispatch = true := by
        simp [prefetchThunk, BoolOrNum.truthy, PrefetchDecision.isDispatch]
      rw [hl]
      simp only [true_iff]
      rcases ts with _ | q
      · exact Or.inl rfl
      · refine Or.inr ⟨q, rfl, ?_⟩
        have hq : q ≤ now := h1 q rfl
        have : (0 : ℚ) ≤ now - q := by linarith
        positivity
    · rcases ts with _ | q
      · simp [prefetchThunk, BoolOrNum.truthy, PrefetchDecision.isDispatch,
          jsOptNumTruthy, hn]
      · have hq : q ≠ 0 := by
          intro h
          exact h0 (by simp [h])
        by_cases hge : (now - q) / 1000 ≥ n <;>
          simp [prefetchThunk, BoolOrNum.truthy, PrefetchDecision.isDispatch,
            jsOptNumTruthy, jsGe, BoolOrNum.toNum, hn, hq, hge]
  · intro ts1 now1
    simp [prefetchThunk, BoolOrNum.truthy, PrefetchDecision.isDispatch]

/-- Witness for claim C5 at `n = 30`, a fulfilled timestamp `1000` and
now `61000` (stale by 60 seconds). -/
theorem claim5_prefetch_ifOlderThan_witness :
    ((prefetchThunk ⟨none, some (BoolOrNum.num 30)⟩ (some 1000) 61000).isDispatch = true ↔
      (some (1000 : ℚ)) = none ∨
        ∃ q, (some (1000 : ℚ)) = some q ∧ ((61000 : ℚ) - q) / 1000 ≥ 30) ∧
    (prefetchThunk ⟨none, some (BoolOrNum.num 0)⟩ (some 7) 3).isDispatch = true :=
  ⟨(claim5_prefetch_ifOlderThan 30 (some 1000) 61000 (by decide)
      (by rintro q hq; simp only [Option.some_inj] at hq; subst hq; norm_num)).1,
    (claim5_prefetch_ifOlderThan 30 (some 1000) 61000 (by decide)
      (by rintro q hq; simp only [Option.some_inj] at hq; subst hq; norm_num)).2 (some 7) 3⟩

/-- Claim C6: the provided/invalidated tag set of a thunk lifecycle
action evaluates the descriptor with the fulfilled payload's result only
when the action is fulfilled (`undefined` otherwise) and with the
rejection payload only when the action is rejected-with-value
(`undefined` otherwise); in particular a rejected-with-value mutation
still computes its invalidated set. -/
theorem claim6_invalidates_on_rejection (d : ResultDescription)
    (arg e r : JSVal) (ts : ℚ) :
    calculateProvidedByThunk (.rejectedWithValue e) d arg =
      calculateProvidedBy d JSVal.undef e arg assertEntityType ∧
    calculateProvidedByThunk (.fulfilled r ts) d arg =
      calculateProvidedBy d r JSVal.undef arg assertEntityType ∧
    calculateProvidedByThunk .rejected d arg =
      calculateProvidedBy d JSVal.undef JSVal.undef arg assertEntityType :=
  ⟨rfl, rfl, rfl⟩

/-- Claim C7: prefetching with no options dispatches the query with
`forceRefetch: false`, so the query is performed iff the key is not
pending and no fulfilled cache entry exists. -/
theorem claim7_prefetch_no_options (rs : Option QuerySubState) (s : Bool)
    (b : BoolOrNum) (now : ℚ)
    (hts : rs.bind (fun r => r.fulfilledTimeStamp) ≠ some 0) :
    prefetchPerforms noOptions rs s b now =
      (decide (rs.map (fun r => r.status) ≠ some QueryStatus.pending) &&
        decide (rs.bind (fun r => r.fulfilledTimeStamp) = none)) := by
  have hpf : ∀ tsv : Option ℚ, prefetchThunk noOptions tsv now =
      PrefetchDecision.dispatch false := by
    intro tsv
    simp [prefetchThunk, noOptions, BoolOrNum.truthy]
  rcases rs with _ | ⟨st, ts⟩
  · simp [prefetchPerforms, hpf, condition, computeRefetchVal, jsOptNumTruthy]
  · by_cases hp : st = QueryStatus.pending
    · simp [prefetchPerforms, hpf, condition, computeRefetchVal, hp]
    · rcases ts with _ | q
      · simp [prefetchPerforms, hpf, condition, computeRefetchVal, hp, jsOptNumTruthy]
      · have hq : q ≠ 0 := by
          intro h
          exact hts (by simp [h])
        simp [prefetchPerforms, hpf, condition, computeRefetchVal, hp,
          jsOptNumTruthy, hq, BoolOrNum.truthy]

/-- Witness for claim C7: with no cache entry the prefetch performs the
query; with a current fulfilled entry it does not. -/
theorem claim7_prefetch_no_options_witness :
    prefetchPerforms noOptions none true (BoolOrNum.bool false) 5000 =
      (decide ((none : Option QuerySubState).map (fun r => r.status) ≠
          some QueryStatus.pending) &&
        decide ((none : Option QuerySubState).bind
          (fun r => r.fulfilledTimeStamp) = none)) ∧
    prefetchPerforms noOptions (some ⟨QueryStatus.fulfilled, some 5000⟩) true
        (BoolOrNum.bool false) 5000 =
      (decide ((some (QuerySubState.mk QueryStatus.fulfilled (some 5000))).map
          (fun r => r.status) ≠ some QueryStatus.pending) &&
        decide ((some (QuerySubState.mk QueryStatus.fulfilled (some 5000))).bind
          (fun r => r.fulfilledTimeStamp) = none)) :=
  ⟨claim7_prefetch_no_options none true (BoolOrNum.bool false) 5000 (by decide),
    claim7_prefetch_no_options (some ⟨QueryStatus.fulfilled, some 5000⟩) true
      (BoolOrNum.bool false) 5000 (by decide)⟩

/-- Claim C8, as stated, is false on the code: `patchQueryResult` never
consults the cache state, so even when no cache entry exists for the key
it still dispatches the `queryResultPatched` action (the claim says no
patch action is dispatched). -/
theorem claim8_patchQueryResult_cex :
    patchQueryResult keyEx [patchEx] =
      [DispatchedAction.queryResultPatched keyEx [patchEx]] ∧
    patchQueryResult keyEx [patchEx] ≠ [] :=
  ⟨rfl, by simp [patchQueryResult]⟩

/-- Claim C8 (amended): `updateQueryResult` is a no-op returning an empty
patch collection and dispatching nothing when the selected state is
uninitialized (no cache entry); `patchQueryResult` returns no patch
collection and always dispatches the `queryResultPatched` action with the
given patches, whatever the cache state. -/
theorem claim8_manual_patch_amended (immer : ImmerModel) (key : String)
    (cs : SelectedQueryState) (recipe : JSVal → JSVal)
    (h : cs.status = QueryStatus.uninitialized) :
    updateQueryResult immer key cs recipe = (⟨[], []⟩, []) ∧
    (∀ key2 patches, patchQueryResult key2 patches =
      [DispatchedAction.queryResultPatched key2 patches]) :=
  ⟨by simp [updateQueryResult, h], fun _ _ => rfl⟩

/-- Witness for the amended claim C8 at an uninitialized selected state. -/
theorem claim8_manual_patch_amended_witness :
    updateQueryResult immerEx keyEx ⟨QueryStatus.uninitialized, none⟩ id = (⟨[], []⟩, []) ∧
    patchQueryResult keyEx [patchEx] =
      [DispatchedAction.queryResultPatched keyEx [patchEx]] :=
  ⟨(claim8_manual_patch_amended immerEx keyEx ⟨QueryStatus.uninitialized, none⟩ id rfl).1,
    (claim8_manual_patch_amended immerEx keyEx ⟨QueryStatus.uninitialized, none⟩ id rfl).2
      keyEx [patchEx]⟩

/-- Case lemma: the request builder or transport throws. -/
theorem tryBlock_transport_throw (env : ExecEnv) (i : ℕ) (c : Ctx) (e : JSVal)
    (h : runTransport env = .error e) :
    tryBlock env i c = ([.transportEv], c, .error (.js e)) := by
  simp [tryBlock, h]

/-- Case lemma: the transport resolves with a truthy `error` field. -/
theorem tryBlock_handled (env : ExecEnv) (i : ℕ) (c : Ctx) (r : QueryReturnValue)
    (h : runTransport env = .ok r) (ht : r.error.truthy = true) :
    tryBlock env i c = ([.transportEv], c, .error (.handled r.error r.meta)) := by
  simp [tryBlock, h, ht]

/-- Case lemma: success path with no `onSuccess` hook and a completing
transform. -/
theorem tryBlock_success_noHook (env : ExecEnv) (i : ℕ) (c : Ctx)
    (r : QueryReturnValue) (v : JSVal)
    (h : runTransport env = .ok r) (ht : r.error.truthy = false)
    (hs : env.onSuccess = none)
    (htr : effectiveTransform env r.data r.meta = .ok v) :
    tryBlock env i c =
      ([.transportEv, .timestampEv env.now, .transformEv r.data r.meta], c,
        .ok (env.now, v)) := by
  simp [tryBlock, h, ht, hs, htr]

/-- Case lemma: success path with an `onSuccess` hook that completes and
a completing transform. -/
theorem tryBlock_success_hook (env : ExecEnv) (i : ℕ) (c : Ctx)
    (r : QueryReturnValue) (v : JSVal)
    (hs : Ctx → JSVal → JSVal → Except JSVal Ctx) (c1 : Ctx)
    (h : runTransport env = .ok r) (ht : r.error.truthy = false)
    (hso : env.onSuccess = some hs) (hsr : hs c r.data r.meta = .ok c1)
    (htr : effectiveTransform env r.data r.meta = .ok v) :
    tryBlock env i c =
      ([.transportEv, .onSuccessEv i c r.data r.meta, .timestampEv env.now,
        .transformEv r.data r.meta], c1, .ok (env.now, v)) := by
  simp [tryBlock, h, ht, hso, hsr, htr]

/-- Case lemma: the `onSuccess` hook throws. -/
theorem tryBlock_onSuccess_throw (env : ExecEnv) (i : ℕ) (c : Ctx)
    (r : QueryReturnValue) (hs : Ctx → JSVal → JSVal → Except JSVal Ctx)
    (e : JSVal)
    (h : runTransport env = .ok r) (ht : r.error.truthy = false)
    (hso : env.onSuccess = some hs) (hsr : hs c r.data r.meta = .error e) :
    tryBlock env i c =
      ([.transportEv, .onSuccessEv i c r.data r.meta], c, .error (.js e)) := by
  simp [tryBlock, h, ht, hso, hsr]

/-- Case lemma: the transform throws, no `onSuccess` hook. -/
theorem tryBlock_transform_throw_noHook (env : ExecEnv) (i : ℕ) (c : Ctx)
    (r : QueryReturnValue) (e : JSVal)
    (h : runTransport env = .ok r) (ht : r.error.truthy = false)
    (hs : env.onSuccess = none)
    (htr : effectiveTransform env r.data r.meta = .error e) :
    tryBlock env i c =
      ([.transportEv, .timestampEv env.now], c, .error (.js e)) := by
  simp [tryBlock, h, ht, hs, htr]

/-- Case lemma: the transform throws after a completing `onSuccess`. -/
theorem tryBlock_transform_throw_hook (env : ExecEnv) (i : ℕ) (c : Ctx)
    (r : QueryReturnValue) (hs : Ctx → JSVal → JSVal → Except JSVal Ctx)
    (c1 : Ctx) (e : JSVal)
    (h : runTransport env = .ok r) (ht : r.error.truthy = false)
    (hso : env.onSuccess = some hs) (hsr : hs c r.data r.meta = .ok c1)
    (htr : effectiveTransform env r.data r.meta = .error e) :
    tryBlock env i c =
      ([.transportEv, .onSuccessEv i c r.data r.meta, .timestampEv env.now],
        c1, .error (.js e)) := by
  simp [tryBlock, h, ht, hso, hsr, htr]

/-- The body on a fulfilled `try` block. -/
theorem executeBody_ok (env : ExecEnv) (i : ℕ) (c : Ctx)
    (t : List ExecEvent) (σ : ℕ) (tr : List ExecEvent) (c1 : Ctx)
    (ts : ℚ) (v : JSVal) (h : tryBlock env i c = (tr, c1, .ok (ts, v))) :
    executeBody env i c t σ = (t ++ tr, .fulfilled ts v, σ + 1) := by
  simp [executeBody, h]

/-- The body on an exception with no `onError` hook. -/
theorem executeBody_err_noHook (env : ExecEnv) (i : ℕ) (c : Ctx)
    (t : List ExecEvent) (σ : ℕ) (tr : List ExecEvent) (c1 : Ctx)
    (exn : Exn) (h : tryBlock env i c = (tr, c1, .error exn))
    (he : env.onError = none) :
    executeBody env i c t σ = (t ++ tr, exnFinish exn, σ + 1) := by
  simp [executeBody, h, he]

/-- The body on an exception with a completing `onError` hook. -/
theorem executeBody_err_hook (env : ExecEnv) (i : ℕ) (c : Ctx)
    (t : List ExecEvent) (σ : ℕ) (tr : List ExecEvent) (c1 : Ctx)
    (exn : Exn) (hk : Ctx → JSVal → JSVal → Except JSVal Ctx) (c2 : Ctx)
    (h : tryBlock env i c = (tr, c1, .error exn))
    (he : env.onError = some hk)
    (hok : hk c1 (exnVal exn) (exnMeta exn) = .ok c2) :
    executeBody env i c t σ =
      (t ++ tr ++ [.onErrorEv i c1 (exnVal exn) (exnMeta exn)],
        exnFinish exn, σ + 1) := by
  simp [executeBody, h, he, hok]

/-- The body on an exception with an `onError` hook that itself throws. -/
theorem executeBody_err_hookThrow (env : ExecEnv) (i : ℕ) (c : Ctx)
    (t : List ExecEvent) (σ : ℕ) (tr : List ExecEvent) (c1 : Ctx)
    (exn : Exn) (hk : Ctx → JSVal → JSVal → Except JSVal Ctx) (e2 : JSVal)
    (h : tryBlock env i c = (tr, c1, .error exn))
    (he : env.onError = some hk)
    (hthrow : hk c1 (exnVal exn) (exnMeta exn) = .error e2) :
    executeBody env i c t σ =
      (t ++ tr ++ [.onErrorEv i c1 (exnVal exn) (exnMeta exn)],
        .thrown e2, σ + 1) := by
  simp [executeBody, h, he, hthrow]

/-- With no `onStart` hook, the execution is the body over the fresh
empty context. -/
theorem executeEndpoint_noStart (env : ExecEnv) (σ : ℕ)
    (h : env.onStart = none) :
    executeEndpoint env σ = executeBody env σ emptyCtx [] σ := by
  simp [executeEndpoint, h]

/-- With an `onStart` hook that completes, the execution is the body over
the context it produced, after the `onStartEv` on the fresh empty
context. -/
theorem executeEndpoint_start_ok (env : ExecEnv) (σ : ℕ)
    (hk : Ctx → Except JSVal Ctx) (c : Ctx)
    (h : env.onStart = some hk) (hc : hk emptyCtx = .ok c) :
    executeEndpoint env σ = executeBody env σ c [.onStartEv σ emptyCtx] σ := by
  simp [executeEndpoint, h, hc]

/-- With an `onStart` hook that throws, the execution ends at once with
that exception uncaught and `onError` never runs. -/
theorem executeEndpoint_start_throw (env : ExecEnv) (σ : ℕ)
    (hk : Ctx → Except JSVal Ctx) (e : JSVal)
    (h : env.onStart = some hk) (hc : hk emptyCtx = .error e) :
    executeEndpoint env σ = ([.onStartEv σ emptyCtx], .thrown e, σ + 1) := by
  simp [executeEndpoint, h, hc]

/-- `ctxAfterStart` under a completing `onStart`. -/
theorem ctxAfterStart_some (env : ExecEnv) (hk : Ctx → Except JSVal Ctx)
    (c : Ctx) (h : env.onStart = some hk) (hc : hk emptyCtx = .ok c) :
    ctxAfterStart env = c := by
  simp [ctxAfterStart, h, hc]

/-- `ctxAfterStart` with no `onStart`. -/
theorem ctxAfterStart_none (env : ExecEnv) (h : env.onStart = none) :
    ctxAfterStart env = emptyCtx := by
  simp [ctxAfterStart, h]

/-- The counter advances by exactly one in every execution. -/
theorem executeBody_counter (env : ExecEnv) (i : ℕ) (c : Ctx)
    (t : List ExecEvent) (σ : ℕ) :
    (executeBody env i c t σ).2.2 = σ + 1 := by
  unfold executeBody
  rcases htb : tryBlock env i c with ⟨tr, c1, res⟩
  rcases res with exn | ⟨ts, v⟩
  · rcases he : env.onError with _ | hk
    · simp
    · rcases hr : hk c1 (exnVal exn) (exnMeta exn) with e2 | c2 <;> simp [hr]
  · simp

/-- Every execution advances the allocation counter by exactly one. -/
theorem execCounter_succ (env : ExecEnv) (σ : ℕ) :
    execCounter env σ = σ + 1 := by
  rcases hst : env.onStart with _ | hk
  · rw [execCounter, executeEndpoint_noStart env σ hst]
    exact executeBody_counter env σ emptyCtx [] σ
  · rcases hr : hk emptyCtx with e | c
    · rw [execCounter, executeEndpoint_start_throw env σ hk e hst hr]
    · rw [execCounter, executeEndpoint_start_ok env σ hk c hst hr]
      exact executeBody_counter env σ c [.onStartEv σ emptyCtx] σ

/-- Every hook event in the try block's trace carries the passed context
identity. -/
theorem tryBlock_trace_ctxId (env : ExecEnv) (i : ℕ) (c : Ctx) :
    ∀ ev ∈ (tryBlock env i c).1, ∀ j, ExecEvent.ctxId ev = some j → j = i := by
  rcases hrt : runTransport env with e | r
  · rw [tryBlock_transport_throw env i c e hrt]
    intro ev hev j hj
    simp only [List.mem_singleton] at hev
    subst hev
    simp [ExecEvent.ctxId] at hj
  · rcases ht : r.error.truthy with _ | _
    · rcases hso : env.onSuccess with _ | hs
      · rcases htr : effectiveTransform env r.data r.meta with e | v
        · rw [tryBlock_transform_throw_noHook env i c r e hrt ht hso htr]
          intro ev hev j hj
          simp only [List.mem_cons, List.mem_singleton, List.not_mem_nil,
            or_false] at hev
          rcases hev with rfl | rfl <;> simp_all [ExecEvent.ctxId]
        · rw [tryBlock_success_noHook env i c r v hrt ht hso htr]
          intro ev hev j hj
          simp only [List.mem_cons, List.mem_singleton, List.not_mem_nil,
            or_false] at hev
          rcases hev with rfl | rfl | rfl <;> simp_all [ExecEvent.ctxId]
      · rcases hsr : hs c r.data r.meta with e | c1
        · rw [tryBlock_onSuccess_throw env i c r hs e hrt ht hso hsr]
          intro ev hev j hj
          simp only [List.mem_cons, List.mem_singleton, List.not_mem_nil,
            or_false] at hev
          rcases hev with rfl | rfl <;> simp_all [ExecEvent.ctxId]
        · rcases htr : effectiveTransform env r.data r.meta with e | v
          · rw [tryBlock_transform_throw_hook env i c r hs c1 e hrt ht hso hsr htr]
            intro ev hev j hj
            simp only [List.mem_cons, List.mem_singleton, List.not_mem_nil,
              or_false] at hev
            rcases hev with rfl | rfl | rfl <;> simp_all [ExecEvent.ctxId]
          · rw [tryBlock_success_hook env i c r v hs c1 hrt ht hso hsr htr]
            intro ev hev j hj
            simp only [List.mem_cons, List.mem_singleton, List.not_mem_nil,
              or_false] at hev
            rcases hev with rfl | rfl | rfl | rfl <;> simp_all [ExecEvent.ctxId]
    · rw [tryBlock_handled env i c r hrt ht]
      intro ev hev j hj
      simp only [List.mem_singleton] at hev
      subst hev
      simp [ExecEvent.ctxId] at hj

/-- When a hook is defined and the success path is reached, the
`onSuccessEv` for the passed context is in the try block's trace,
whatever the hook and the transform then do. -/
theorem tryBlock_onSuccess_mem (env : ExecEnv) (i : ℕ) (c : Ctx)
    (r : QueryReturnValue) (hs : Ctx → JSVal → JSVal → Except JSVal Ctx)
    (hrt : runTransport env = .ok r) (ht : r.error.truthy = false)
    (hso : env.onSuccess = some hs) :
    ExecEvent.onSuccessEv i c r.data r.meta ∈ (tryBlock env i c).1 := by
  rcases hsr : hs c r.data r.meta with e | c1
  · rw [tryBlock_onSuccess_throw env i c r hs e hrt ht hso hsr]
    simp
  · rcases htr : effectiveTransform env r.data r.meta with e | v
    · rw [tryBlock_transform_throw_hook env i c r hs c1 e hrt ht hso hsr htr]
      simp
    · rw [tryBlock_success_hook env i c r v hs c1 hrt ht hso hsr htr]
      simp

/-- The body's trace extends the prefix trace and the try block's trace. -/
theorem executeBody_trace_mem (env : ExecEnv) (i : ℕ) (c : Ctx)
    (t : List ExecEvent) (σ : ℕ) (ev : ExecEvent)
    (h : ev ∈ t ++ (tryBlock env i c).1) :
    ev ∈ (executeBody env i c t σ).1 := by
  rcases htb : tryBlock env i c with ⟨tr, c1, res⟩
  have h1 : ev ∈ t ++ tr := by rw [htb] at h; exact h
  rcases res with exn | ⟨ts, v⟩
  · rcases he : env.onError with _ | hk
    · rw [executeBody_err_noHook env i c t σ tr c1 exn htb he]
      exact h1
    · rcases hr : hk c1 (exnVal exn) (exnMeta exn) with e2 | c2
      · rw [executeBody_err_hookThrow env i c t σ tr c1 exn hk e2 htb he hr]
        exact List.mem_append_left _ h1
      · rw [executeBody_err_hook env i c t σ tr c1 exn hk c2 htb he hr]
        exact List.mem_append_left _ h1
  · rw [executeBody_ok env i c t σ tr c1 ts v htb]
    exact h1

/-- Context identities in the body's trace all equal the passed one,
provided the prefix trace already satisfies this. -/
theorem executeBody_trace_ctxId (env : ExecEnv) (i : ℕ) (c : Ctx)
    (t : List ExecEvent) (σ : ℕ)
    (h0 : ∀ ev ∈ t, ∀ j, ExecEvent.ctxId ev = some j → j = i) :
    ∀ ev ∈ (executeBody env i c t σ).1, ∀ j,
      ExecEvent.ctxId ev = some j → j = i := by
  have h1 := tryBlock_trace_ctxId env i c
  rcases htb : tryBlock env i c with ⟨tr, c1, res⟩
  rw [htb] at h1
  rcases res with exn | ⟨ts, v⟩
  · rcases he : env.onError with _ | hk
    · rw [executeBody_err_noHook env i c t σ tr c1 exn htb he]
      intro ev hev j hj
      rcases List.mem_append.1 hev with h | h
      · exact h0 ev h j hj
      · exact h1 ev h j hj
    · have hall : ∀ ev ∈ t ++ tr ++ [ExecEvent.onErrorEv i c1 (exnVal exn) (exnMeta exn)],
          ∀ j, ExecEvent.ctxId ev = some j → j = i := by
        intro ev hev j hj
        rcases List.mem_append.1 hev with h | h
        · rcases List.mem_append.1 h with h2 | h2
          · exact h0 ev h2 j hj
          · exact h1 ev h2 j hj
        · simp only [List.mem_singleton] at h
          subst h
          simp [ExecEvent.ctxId] at hj
          omega
      rcases hr : hk c1 (exnVal exn) (exnMeta exn) with e2 | c2
      · rw [executeBody_err_hookThrow env i c t σ tr c1 exn hk e2 htb he hr]
        exact hall
      · rw [executeBody_err_hook env i c t σ tr c1 exn hk c2 htb he hr]
        exact hall
  · rw [executeBody_ok env i c t σ tr c1 ts v htb]
    intro ev hev j hj
    rcases List.mem_append.1 hev with h | h
    · exact h0 ev h j hj
    · exact h1 ev h j hj

/-- The body's trace starts with the passed prefix trace. -/
theorem executeBody_trace_shape (env : ExecEnv) (i : ℕ) (c : Ctx)
    (t : List ExecEvent) (σ : ℕ) :
    ∃ rest, (executeBody env i c t σ).1 = t ++ rest := by
  rcases htb : tryBlock env i c with ⟨tr, c1, res⟩
  rcases res with exn | ⟨ts, v⟩
  · rcases he : env.onError with _ | hk
    · exact ⟨tr, by rw [executeBody_err_noHook env i c t σ tr c1 exn htb he]⟩
    · rcases hr : hk c1 (exnVal exn) (exnMeta exn) with e2 | c2
      · refine ⟨tr ++ [ExecEvent.onErrorEv i c1 (exnVal exn) (exnMeta exn)], ?_⟩
        rw [executeBody_err_hookThrow env i c t σ tr c1 exn hk e2 htb he hr]
        simp
      · refine ⟨tr ++ [ExecEvent.onErrorEv i c1 (exnVal exn) (exnMeta exn)], ?_⟩
        rw [executeBody_err_hook env i c t σ tr c1 exn hk c2 htb he hr]
        simp
  · exact ⟨tr, by rw [executeBody_ok env i c t σ tr c1 ts v htb]⟩

/-- Every hook event in an execution's trace carries the context identity
allocated for that execution. -/
theorem execTrace_ctxId (env : ExecEnv) (σ : ℕ) :
    ∀ ev ∈ execTrace env σ, ∀ j, ExecEvent.ctxId ev = some j → j = σ := by
  rcases hst : env.onStart with _ | hk
  · rw [execTrace, executeEndpoint_noStart env σ hst]
    exact executeBody_trace_ctxId env σ emptyCtx [] σ (by simp)
  · rcases hr : hk emptyCtx with e | c
    · rw [execTrace, executeEndpoint_start_throw env σ hk e hst hr]
      intro ev hev j hj
      simp only [List.mem_singleton] at hev
      subst hev
      simp [ExecEvent.ctxId] at hj
      omega
    · rw [execTrace, executeEndpoint_start_ok env σ hk c hst hr]
      refine executeBody_trace_ctxId env σ c [.onStartEv σ emptyCtx] σ ?_
      intro ev hev j hj
      simp only [List.mem_singleton] at hev
      subst hev
      simp [ExecEvent.ctxId] at hj
      omega

/-- When `onStart` completes, the execution is the body over the context
it left, with the start event as trace prefix. -/
theorem executeEndpoint_body (env : ExecEnv) (σ : ℕ) (hstart : onStartOk env) :
    ∃ t, executeEndpoint env σ = executeBody env σ (ctxAfterStart env) t σ := by
  rcases hst : env.onStart with _ | hk
  · exact ⟨[], by rw [executeEndpoint_noStart env σ hst, ctxAfterStart_none env hst]⟩
  · have hs' : ∃ c, hk emptyCtx = .ok c := by
      simpa [onStartOk, hst] using hstart
    rcases hs' with ⟨c, hc⟩
    refine ⟨[.onStartEv σ emptyCtx], ?_⟩
    rw [executeEndpoint_start_ok env σ hk c hst hc, ctxAfterStart_some env hk c hst hc]

/-- When the try block over the post-`onStart` context ends in an
exception and `onError` does not throw, the execution's outcome is the
catch block's finish for that exception, and when `onError` is defined
the trace records its invocation with the exception's value and meta. -/
theorem execute_with_exn (env : ExecEnv) (σ : ℕ) (exn : Exn)
    (tr : List ExecEvent) (c1 : Ctx)
    (hstart : onStartOk env) (herr : onErrorNoThrow env)
    (htb : tryBlock env σ (ctxAfterStart env) = (tr, c1, .error exn)) :
    execOutcome env σ = exnFinish exn ∧
    (env.onError.isSome = true →
      ∃ c2, ExecEvent.onErrorEv σ c2 (exnVal exn) (exnMeta exn) ∈ execTrace env σ) := by
  rcases executeEndpoint_body env σ hstart with ⟨t, hbody⟩
  rcases he : env.onError with _ | hk2
  · constructor
    · rw [execOutcome, hbody,
        executeBody_err_noHook env σ _ t σ tr c1 exn htb he]
    · intro hsome
      simp only [he, Option.isSome_none] at hsome
      exact absurd hsome (by simp)
  · have hok : ∃ c2, hk2 c1 (exnVal exn) (exnMeta exn) = .ok c2 := by
      have h2 := herr
      simp only [onErrorNoThrow, he] at h2
      exact h2 c1 _ _
    rcases hok with ⟨c2, hok⟩
    constructor
    · rw [execOutcome, hbody,
        executeBody_err_hook env σ _ t σ tr c1 exn hk2 c2 htb he hok]
    · intro _
      refine ⟨c1, ?_⟩
      rw [execTrace, hbody,
        executeBody_err_hook env σ _ t σ tr c1 exn hk2 c2 htb he hok]
      simp

/-- Claim C3, as stated, is false on the code: with a custom `queryFn`
resolving to `{data: 5, error: 0}` the `error` field is present (not
`undefined`) but falsy, so `if (result.error)` does not fire and the
execution fulfills with result `5` instead of ending as a
rejection-with-value carrying `0`. -/
theorem claim3_error_presence_cex :
    envFalsyError.queryFn = Except.ok ⟨JSVal.num 5, JSVal.num 0, JSVal.undef⟩ ∧
    JSVal.num 0 ≠ JSVal.undef ∧
    execOutcome envFalsyError 0 = ExecOutcome.fulfilled 7 (JSVal.num 5) ∧
    execOutcome envFalsyError 0 ≠ ExecOutcome.rejectedWithValue (JSVal.num 0) := by
  have h : execOutcome envFalsyError 0 = ExecOutcome.fulfilled 7 (JSVal.num 5) := by
    rw [execOutcome, executeEndpoint_noStart envFalsyError 0 rfl,
      executeBody_ok envFalsyError 0 emptyCtx [] 0 _ emptyCtx 7 (JSVal.num 5)
        (tryBlock_success_noHook envFalsyError 0 emptyCtx
          ⟨JSVal.num 5, JSVal.num 0, JSVal.undef⟩ (JSVal.num 5) rfl
          (by norm_num [JSVal.truthy]) rfl rfl)]
  refine ⟨rfl, by simp, h, ?_⟩
  rw [h]
  simp

/-- Claim C3 (amended): if the transport (or custom `queryFn`) resolves
to a result whose `error` field is truthy, the execution ends as a
rejection-with-value carrying exactly that error payload, and its meta is
passed to `onError`; an exception thrown during request building,
transport, `onSuccess` or response transformation is re-thrown rather
than converted to a rejection-with-value; in each of these cases
`onError` (when defined) is invoked before the execution ends — provided
`onStart` completed (it runs before the try block, so its exceptions
skip `onError`) and `onError` itself does not throw. -/
theorem claim3_error_classification (env : ExecEnv) (σ : ℕ)
    (hstart : onStartOk env) (herr : onErrorNoThrow env) :
    (∀ r, runTransport env = .ok r → r.error.truthy = true →
      execOutcome env σ = .rejectedWithValue r.error ∧
      (env.onError.isSome = true →
        ∃ c, ExecEvent.onErrorEv σ c r.error r.meta ∈ execTrace env σ)) ∧
    (∀ e, runTransport env = .error e →
      execOutcome env σ = .thrown e ∧
      (env.onError.isSome = true →
        ∃ c, ExecEvent.onErrorEv σ c e JSVal.undef ∈ execTrace env σ)) ∧
    (∀ r hs e, runTransport env = .ok r → r.error.truthy = false →
      env.onSuccess = some hs →
      hs (ctxAfterStart env) r.data r.meta = .error e →
      execOutcome env σ = .thrown e ∧
      (env.onError.isSome = true →
        ∃ c, ExecEvent.onErrorEv σ c e JSVal.undef ∈ execTrace env σ)) ∧
    (∀ r c1 e, runTransport env = .ok r → r.error.truthy = false →
      onSuccessYields env r c1 →
      effectiveTransform env r.data r.meta = .error e →
      execOutcome env σ = .thrown e ∧
      (env.onError.isSome = true →
        ∃ c, ExecEvent.onErrorEv σ c e JSVal.undef ∈ execTrace env σ)) := by
  refine ⟨?_, ?_, ?_, ?_⟩
  · intro r hrt ht
    exact execute_with_exn env σ (.handled r.error r.meta) _ _ hstart herr
      (tryBlock_handled env σ (ctxAfterStart env) r hrt ht)
  · intro e hrt
    exact execute_with_exn env σ (.js e) _ _ hstart herr
      (tryBlock_transport_throw env σ (ctxAfterStart env) e hrt)
  · intro r hs e hrt ht hso hsr
    exact execute_with_exn env σ (.js e) _ _ hstart herr
      (tryBlock_onSuccess_throw env σ (ctxAfterStart env) r hs e hrt ht hso hsr)
  · intro r c1 e hrt ht hy htr
    rcases hso : env.onSuccess with _ | hs
    · have hc1 : c1 = ctxAfterStart env := by
        simpa [onSuccessYields, hso] using hy
      exact execute_with_exn env σ (.js e) _ _ hstart herr
        (tryBlock_transform_throw_noHook env σ (ctxAfterStart env) r e hrt ht hso htr)
    · have hsr : hs (ctxAfterStart env) r.data r.meta = .ok c1 := by
        simpa [onSuccessYields, hso] using hy
      exact execute_with_exn env σ (.js e) _ _ hstart herr
        (tryBlock_transform_throw_hook env σ (ctxAfterStart env) r hs c1 e hrt ht hso hsr htr)

/-- Witness for the amended claim C3: a truthy `error: 7` with `meta: 9`
ends as `rejectWithValue 7` with `onError` invoked with that error and
meta. -/
theorem claim3_error_classification_witness :
    execOutcome envHandled 0 = ExecOutcome.rejectedWithValue (JSVal.num 7) ∧
    ∃ c, ExecEvent.onErrorEv 0 c (JSVal.num 7) (JSVal.num 9) ∈ execTrace envHandled 0 := by
  have h := (claim3_error_classification envHandled 0 trivial
      (fun c v m => ⟨c, rfl⟩)).1 ⟨JSVal.undef, JSVal.num 7, JSVal.num 9⟩ rfl
      (by norm_num [JSVal.truthy])
  exact ⟨h.1, h.2 rfl⟩

/-- Claim C9: each execution allocates a fresh context identity (the
counter advances by one and every hook event carries the execution's own
identity, so hook events of an execution run at the advanced counter can
never share it); when `onStart` is defined it is invoked first, on the
fresh empty context; and the context `onStart` leaves is the one handed
to `onSuccess` (success path) and to `onError` (transport-throw path). -/
theorem claim9_context_freshness (env : ExecEnv) (σ : ℕ) :
    execCounter env σ = σ + 1 ∧
    (∀ ev ∈ execTrace env σ, ∀ j, ExecEvent.ctxId ev = some j → j = σ) ∧
    (∀ hk, env.onStart = some hk →
      (execTrace env σ).head? = some (.onStartEv σ emptyCtx)) ∧
    (∀ hk c1 r hs, env.onStart = some hk → hk emptyCtx = .ok c1 →
      runTransport env = .ok r → r.error.truthy = false →
      env.onSuccess = some hs →
      ExecEvent.onSuccessEv σ c1 r.data r.meta ∈ execTrace env σ) ∧
    (∀ hk c1 e hke, env.onStart = some hk → hk emptyCtx = .ok c1 →
      runTransport env = .error e → env.onError = some hke →
      ExecEvent.onErrorEv σ c1 e JSVal.undef ∈ execTrace env σ) ∧
    (∀ (env2 : ExecEnv) (ev1 ev2 : ExecEvent) (i j : ℕ),
      ev1 ∈ execTrace env σ → ev2 ∈ execTrace env2 (execCounter env σ) →
      ExecEvent.ctxId ev1 = some i → ExecEvent.ctxId ev2 = some j → i ≠ j) := by
  refine ⟨execCounter_succ env σ, execTrace_ctxId env σ, ?_, ?_, ?_, ?_⟩
  · intro hk hst
    rcases hr : hk emptyCtx with e | c
    · rw [execTrace, executeEndpoint_start_throw env σ hk e hst hr]
      rfl
    · rw [execTrace, executeEndpoint_start_ok env σ hk c hst hr]
      rcases executeBody_trace_shape env σ c [.onStartEv σ emptyCtx] σ with ⟨rest, hsh⟩
      rw [hsh]
      rfl
  · intro hk c1 r hs hst hc hrt ht hso
    rw [execTrace, executeEndpoint_start_ok env σ hk c1 hst hc]
    refine executeBody_trace_mem env σ c1 [.onStartEv σ emptyCtx] σ _ ?_
    exact List.mem_append_right _ (tryBlock_onSuccess_mem env σ c1 r hs hrt ht hso)
  · intro hk c1 e hke hst hc hrt he
    rw [execTrace, executeEndpoint_start_ok env σ hk c1 hst hc]
    rcases hr : hke c1 e JSVal.undef with e2 | c2
    · rw [executeBody_err_hookThrow env σ c1 [.onStartEv σ emptyCtx] σ
        [.transportEv] c1 (.js e) hke e2
        (tryBlock_transport_throw env σ c1 e hrt) he hr]
      simp [exnVal, exnMeta]
    · rw [executeBody_err_hook env σ c1 [.onStartEv σ emptyCtx] σ
        [.transportEv] c1 (.js e) hke c2
        (tryBlock_transport_throw env σ c1 e hrt) he hr]
      simp [exnVal, exnMeta]
  · intro env2 ev1 ev2 i j h1 h2 hi hj
    have hi' := execTrace_ctxId env σ ev1 h1 i hi
    have hj' := execTrace_ctxId env2 (execCounter env σ) ev2 h2 j hj
    rw [execCounter_succ env σ] at hj'
    omega

/-- Witness for claim C9 at an execution whose `onStart` stashes a value,
and a second execution (run at the advanced counter) whose transport
throws. -/
theorem claim9_context_freshness_witness :
    execCounter envHooks 0 = 0 + 1 ∧
    (execTrace envHooks 0).head? = some (.onStartEv 0 emptyCtx) ∧
    ExecEvent.onSuccessEv 0 [(keyEx, JSVal.num 1)] (JSVal.num 5) (JSVal.num 6) ∈
      execTrace envHooks 0 ∧
    ExecEvent.onErrorEv 0 [(keyEx, JSVal.num 1)] (JSVal.num 8) JSVal.undef ∈
      execTrace envHooksErr 0 := by
  refine ⟨(claim9_context_freshness envHooks 0).1, ?_, ?_, ?_⟩
  · exact (claim9_context_freshness envHooks 0).2.2.1 _ rfl
  · exact (claim9_context_freshness envHooks 0).2.2.2.1 _ [(keyEx, JSVal.num 1)]
      ⟨JSVal.num 5, JSVal.undef, JSVal.num 6⟩ _ rfl rfl rfl rfl rfl
  · exact (claim9_context_freshness envHooksErr 0).2.2.2.2.1 _
      [(keyEx, JSVal.num 1)] (JSVal.num 8) _ rfl rfl rfl rfl

/-- Claim C10: on the success path, `onSuccess` is invoked with the raw
untransformed transport data (before the transform event), the stored
result is `transformResponse(data, meta)` — the identity when the
endpoint defines no transform — and the fulfillment timestamp is
evaluated before the transform completes (the timestamp event precedes
the transform event at the trace's end). -/
theorem claim10_success_transform (env : ExecEnv) (σ : ℕ)
    (r : QueryReturnValue) (v : JSVal) (hstart : onStartOk env)
    (ht : runTransport env = .ok r) (he : r.error.truthy = false)
    (htr : effectiveTransform env r.data r.meta = .ok v) :
    (∀ hs c1, env.onSuccess = some hs →
      hs (ctxAfterStart env) r.data r.meta = .ok c1 →
      execOutcome env σ = .fulfilled env.now v ∧
      ∃ pre, execTrace env σ =
          pre ++ [.timestampEv env.now, .transformEv r.data r.meta] ∧
        ExecEvent.onSuccessEv σ (ctxAfterStart env) r.data r.meta ∈ pre) ∧
    (env.onSuccess = none →
      execOutcome env σ = .fulfilled env.now v ∧
      ∃ pre, execTrace env σ =
        pre ++ [.timestampEv env.now, .transformEv r.data r.meta]) ∧
    ((env.usesQuery && env.hasTransformResponse) = false → v = r.data) := by
  rcases executeEndpoint_body env σ hstart with ⟨t, hbody⟩
  refine ⟨?_, ?_, ?_⟩
  · intro hs c1 hso hsr
    have htb := tryBlock_success_hook env σ (ctxAfterStart env) r v hs c1 ht he hso hsr htr
    constructor
    · rw [execOutcome, hbody, executeBody_ok env σ _ t σ _ c1 env.now v htb]
    · refine ⟨t ++ [.transportEv,
        .onSuccessEv σ (ctxAfterStart env) r.data r.meta], ?_, by simp⟩
      rw [execTrace, hbody, executeBody_ok env σ _ t σ _ c1 env.now v htb]
      simp
  · intro hso
    have htb := tryBlock_success_noHook env σ (ctxAfterStart env) r v ht he hso htr
    constructor
    · rw [execOutcome, hbody,
        executeBody_ok env σ _ t σ _ (ctxAfterStart env) env.now v htb]
    · refine ⟨t ++ [.transportEv], ?_⟩
      rw [execTrace, hbody,
        executeBody_ok env σ _ t σ _ (ctxAfterStart env) env.now v htb]
      simp
  · intro hq
    have : effectiveTransform env = defaultTransformResponse := by
      rw [effectiveTransform, hq]
      simp
    rw [this] at htr
    simpa [defaultTransformResponse] using htr.symm

/-- Witness for claim C10 at `envHooks`: raw data `5`, meta `6`, default
identity transform, timestamp `4`. -/
theorem claim10_success_transform_witness :
    (execOutcome envHooks 0 = .fulfilled envHooks.now (JSVal.num 5) ∧
      ∃ pre, execTrace envHooks 0 =
          pre ++ [.timestampEv envHooks.now, .transformEv (JSVal.num 5) (JSVal.num 6)] ∧
        ExecEvent.onSuccessEv 0 (ctxAfterStart envHooks) (JSVal.num 5) (JSVal.num 6) ∈ pre) ∧
    ((envHooks.usesQuery && envHooks.hasTransformResponse) = false →
      JSVal.num 5 = JSVal.num 5) := by
  have h := claim10_success_transform envHooks 0
    ⟨JSVal.num 5, JSVal.undef, JSVal.num 6⟩ (JSVal.num 5)
    ⟨[(keyEx, JSVal.num 1)], rfl⟩ rfl rfl rfl
  exact ⟨h.1 _ [(keyEx, JSVal.num 1)] rfl rfl, h.2.2⟩

end RTKQ
